import Mathlib

/-!
Shallow embedding of the climate-index-analysis statistical pipeline
(`src/t_tests.py`, with the earlier drafts `src/t_test_exclude_index.py`
and `src/t_test_pre_post_2016.py` sharing the same function bodies).

The tabular data engine (pandas) is modelled by a small data-frame type:
a header of column names and rows of cells.  A cell is a string, an
integer, a rational number, or the missing marker `na` (pandas NaN).
Real (floating-point) arithmetic of the statistical libraries is modelled
over `ℚ`/`ℝ`; a value that is not a finite real in the source (IEEE NaN
or ±infinity, e.g. a 0/0 t-value) is modelled as `Option.none`, and the
guards producing such values are made explicit rational zero-tests.
The Student-t survival function used by scipy/statsmodels for p-values is
an external numerical routine; it is threaded through as an explicit
function parameter `tsf` (p-value = `2 * tsf |t| df`).
-/

/-- A pandas cell: string, integer, rational number, or missing (NaN). -/
inductive Cell where
  | str (s : String)
  | int (n : ℤ)
  | num (q : ℚ)
  | na
deriving DecidableEq, Repr

/-- A pandas DataFrame: a header of column names and rows of cells.
Rows of a frame parsed from a CSV all have the header's length
(`DF.Rect` below); the operations are total and take the usual junk
values on ragged input. -/
structure DF where
  header : List String
  rows : List (List Cell)
deriving DecidableEq, Repr

/-- A data frame is rectangular: every row has one cell per column. -/
def DF.Rect (df : DF) : Prop := ∀ r ∈ df.rows, r.length = df.header.length

instance (df : DF) : Decidable df.Rect := by
  unfold DF.Rect; infer_instance

/-- Position of a column name in a header (first occurrence). -/
def colIdx? : List String → String → Option ℕ
  | [], _ => none
  | h :: t, c => if h = c then some 0 else (colIdx? t c).map (· + 1)

/-- Column access `data[c]`: the column's cells, or a pandas `KeyError`
when the column is absent. -/
def getCol (df : DF) (c : String) : Except String (List Cell) :=
  match colIdx? df.header c with
  | none => .error ("KeyError: " ++ c)
  | some i => .ok (df.rows.map (fun r => r.getD i .na))

/-- Column removal `data.drop(columns=[c])`: `KeyError` when absent.
The repository's frames carry each column name once, so dropping the
first occurrence is dropping the column. -/
def dropCol (df : DF) (c : String) : Except String DF :=
  match colIdx? df.header c with
  | none => .error ("KeyError: " ++ c)
  | some i => .ok ⟨df.header.eraseIdx i, df.rows.map (fun r => r.eraseIdx i)⟩

/-- Column assignment `data[c] = vals`: overwrites the column when the
name is present, appends a new column otherwise (pandas semantics). -/
def setCol (df : DF) (c : String) (vals : List Cell) : DF :=
  match colIdx? df.header c with
  | some i => ⟨df.header, (df.rows.zip vals).map (fun p => p.1.set i p.2)⟩
  | none => ⟨df.header ++ [c], (df.rows.zip vals).map (fun p => p.1 ++ [p.2])⟩

/-- The comparison `year >= 2016` on one cell of the year column. -/
def cellGe2016 : Cell → Bool
  | .int n => 2016 ≤ n
  | .num q => 2016 ≤ q
  | _ => false

/-- Function `filter_data` (src/t_tests.py lines 22-34): drop the `in_index6`
membership column and attach the derived binary column `pre_post_2016`,
`(data_filtered["year"] >= 2016).astype(int)`. -/
def filter_data (df : DF) : Except String DF := do
  let d1 ← dropCol df "in_index6"
  let yc ← getCol d1 "year"
  .ok (setCol d1 "pre_post_2016" (yc.map (fun c => Cell.int (if cellGe2016 c then 1 else 0))))

/-- Cell of one row at a named column (the row taken from the frame whose
header is consulted); `na` when out of range. -/
def cellAt (df : DF) (r : List Cell) (c : String) : Cell :=
  match colIdx? df.header c with
  | some i => r.getD i .na
  | none => .na

/-- Selection `data_filtered[data_filtered["ticker"] == "ALV.DE"]`
(src/t_tests.py line 171). -/
def dataAlv (df : DF) : DF :=
  ⟨df.header, df.rows.filter (fun r => cellAt df r "ticker" == .str "ALV.DE")⟩

/-- Selection `data_filtered[data_filtered["ticker"] == "TTE.PA"]`
(src/t_tests.py line 172). -/
def dataTte (df : DF) : DF :=
  ⟨df.header, df.rows.filter (fun r => cellAt df r "ticker" == .str "TTE.PA")⟩

/-- Selection `data_filtered[~data_filtered["ticker"].isin(["ALV.DE", "TTE.PA"])]`
(src/t_tests.py line 173): both reserved subjects are excluded. -/
def dataOthers (df : DF) : DF :=
  ⟨df.header, df.rows.filter (fun r =>
    !(cellAt df r "ticker" == .str "ALV.DE" || cellAt df r "ticker" == .str "TTE.PA"))⟩

/-- Numeric content of a cell: the metric columns hold numbers or NaN,
and `Series.dropna` keeps the numbers. -/
def cellToNum : Cell → Option ℚ
  | .int n => some (n : ℚ)
  | .num q => some q
  | _ => none

/-- Method `series.dropna()` on a metric column: the non-missing numeric values,
in frame order. -/
def dropna (c : List Cell) : List ℚ := c.filterMap cellToNum

/-- Mean of a list of rationals (junk `0` on `[]`, never taken under the
sample-size guards). -/
def qmean (l : List ℚ) : ℚ := l.sum / l.length

/-- Sample variance with `ddof = 1`, as used by `scipy.stats.ttest_ind`. -/
def qvar (l : List ℚ) : ℚ :=
  (l.map (fun x => (x - qmean l) ^ 2)).sum / ((l.length : ℚ) - 1)

/-- Welch t-statistic of `scipy.stats.ttest_ind(a, b, equal_var=False)`:
`(mean a - mean b) / sqrt(var a / n_a + var b / n_b)`.  When the squared
standard error is zero the division is IEEE `±inf`/`NaN`; such non-finite
statistics are modelled as `none`. -/
noncomputable def welchT (a b : List ℚ) : Option ℝ :=
  let se2 : ℚ := qvar a / a.length + qvar b / b.length
  if se2 = 0 then none
  else some (((qmean a - qmean b : ℚ) : ℝ) / Real.sqrt (se2 : ℝ))

/-- Welch–Satterthwaite degrees of freedom of the same scipy call. -/
def welchDF (a b : List ℚ) : ℚ :=
  let ua : ℚ := qvar a / a.length
  let ub : ℚ := qvar b / b.length
  (ua + ub) ^ 2 / (ua ^ 2 / ((a.length : ℚ) - 1) + ub ^ 2 / ((b.length : ℚ) - 1))

/-- Two-sided p-value of the scipy Welch test, `2 * tsf |t| df` for the
Student-t survival function `tsf`; `NaN` (`none`) when the statistic is. -/
noncomputable def welchP (tsf : ℝ → ℝ → ℝ) (a b : List ℚ) : Option ℝ :=
  (welchT a b).map (fun t => 2 * tsf |t| ((welchDF a b : ℚ) : ℝ))

/-- One field of a stored test result: a (possibly non-finite) number, or
the literal sentinel string `"insufficient data"`. -/
inductive SVal where
  | num (x : Option ℝ)
  | insufficient

/-- One stored test result `{"t_stat": ..., "p_value": ...}`. -/
structure TRes where
  t_stat : SVal
  p_value : SVal

/-- The sentinel result
`{"t_stat": "insufficient data", "p_value": "insufficient data"}`. -/
def insuffTRes : TRes := ⟨.insufficient, .insufficient⟩

/-- Body of the `perform_ttests` loop for one metric
(src/t_tests.py lines 50-63): drop the missing values on both sides and
run the Welch test when both series keep strictly more than one value,
otherwise store the sentinel. -/
noncomputable def ttestEntry (tsf : ℝ → ℝ → ℝ) (c1 c2 : List Cell) : TRes :=
  let d1 := dropna c1
  let d2 := dropna c2
  if 1 < d1.length ∧ 1 < d2.length then
    ⟨.num (welchT d1 d2), .num (welchP tsf d1 d2)⟩
  else insuffTRes

/-- Function `perform_ttests(data1, data2, metrics)` (src/t_tests.py lines 37-65):
one entry per metric; column access raises `KeyError` when a metric
column is absent. -/
noncomputable def perform_ttests (tsf : ℝ → ℝ → ℝ) (d1 d2 : DF) (metrics : List String) :
    Except String (List (String × TRes)) :=
  metrics.mapM (fun m => do
    let c1 ← getCol d1 m
    let c2 ← getCol d2 m
    .ok (m, ttestEntry tsf c1 c2))

/-- Rows of one regression: the metric value (possibly missing) paired
with the `pre_post_2016` indicator value, in group order. -/
abbrev RegRows := List (Option ℚ × ℚ)

/-- Count `group[metric].notnull().sum()`: the number of non-missing metric
values of the group (src/t_tests.py line 83). -/
def notnullCount (rows : RegRows) : ℕ := (rows.filterMap (·.1)).length

/-- The check of `statsmodels.api.add_constant` (default
`has_constant='skip'`): an existing column is a constant iff its range
(`ptp`) is zero and all its entries are nonzero; in that case no
intercept column is prepended. -/
def isNonzeroConst (d : List ℚ) : Bool :=
  d.all (fun x => x == d.headD 0) && d.all (fun x => x != 0)

/-- Library `statsmodels` with `missing='none'` (the `sm.OLS` default) feeds the
endogenous column to the fit as is; this extracts the all-present values,
`none` when any metric value is missing (`NaN`), in which case every
fitted quantity is `NaN`. -/
def seqRows : RegRows → Option (List (ℚ × ℚ))
  | [] => some []
  | (some y, d) :: t => (seqRows t).map (fun r => (y, d) :: r)
  | (none, _) :: _ => none

/-- The t-value of the slope coefficient of the OLS fit
`y ~ [const, d]` (design matrix with prepended intercept), in closed
form: `b1 / sqrt(scale * (XtX)⁻¹[1,1])` with `scale = ssr / (n - 2)`.
A zero centred sum of squares of `d` makes the design rank deficient
(slope `0`, zero standard error: t-value `0/0 = NaN`); a zero residual
degree of freedom makes `scale = 0/0 = NaN`; a zero standard error with
nonzero slope gives `±inf`.  All non-finite t-values are `none`. -/
noncomputable def tvalSlopeQ (r : List (ℚ × ℚ)) : Option ℝ :=
  let n : ℚ := r.length
  let dbar := qmean (r.map (·.2))
  let ybar := qmean (r.map (·.1))
  let sdd := (r.map (fun p => (p.2 - dbar) ^ 2)).sum
  if sdd = 0 then none
  else
    let b1 := (r.map (fun p => (p.2 - dbar) * (p.1 - ybar))).sum / sdd
    let ssr := (r.map (fun p => (p.1 - ybar - b1 * (p.2 - dbar)) ^ 2)).sum
    if n - 2 = 0 then none
    else
      let v : ℚ := ssr / (n - 2) / sdd
      if v = 0 then none else some ((b1 : ℝ) / Real.sqrt (v : ℝ))

/-- Two-sided p-value of the slope coefficient, `2 * tsf |t| df_resid`
with `df_resid = n - 2`; `NaN` when the t-value is. -/
noncomputable def pvalSlopeQ (tsf : ℝ → ℝ → ℝ) (r : List (ℚ × ℚ)) : Option ℝ :=
  (tvalSlopeQ r).map (fun t => 2 * tsf |t| ((r.length : ℝ) - 2))

/-- The t-value of the intercept coefficient of the same fit.  In the
rank-deficient case (`d` the zero column) the pseudoinverse fit has
intercept `ȳ`, `(XtX)⁺[0,0] = 1/n`, and `df_resid = n - rank = n - 1`. -/
noncomputable def tvalInterceptQ (r : List (ℚ × ℚ)) : Option ℝ :=
  let n : ℚ := r.length
  let dbar := qmean (r.map (·.2))
  let ybar := qmean (r.map (·.1))
  let sdd := (r.map (fun p => (p.2 - dbar) ^ 2)).sum
  if sdd = 0 then
    let ssr0 := (r.map (fun p => (p.1 - ybar) ^ 2)).sum
    if n - 1 = 0 then none
    else
      let v : ℚ := ssr0 / (n - 1) / n
      if v = 0 then none else some ((ybar : ℝ) / Real.sqrt (v : ℝ))
  else
    let b1 := (r.map (fun p => (p.2 - dbar) * (p.1 - ybar))).sum / sdd
    let b0 := ybar - b1 * dbar
    let ssr := (r.map (fun p => (p.1 - ybar - b1 * (p.2 - dbar)) ^ 2)).sum
    if n - 2 = 0 then none
    else
      let v : ℚ := ssr / (n - 2) * (1 / n + dbar ^ 2 / sdd)
      if v = 0 then none else some ((b0 : ℝ) / Real.sqrt (v : ℝ))

/-- Two-sided p-value of the intercept coefficient (degrees of freedom
`n - 2`, or `n - 1` for the rank-deficient zero-column design). -/
noncomputable def pvalInterceptQ (tsf : ℝ → ℝ → ℝ) (r : List (ℚ × ℚ)) : Option ℝ :=
  let dbar := qmean (r.map (·.2))
  let sdd := (r.map (fun p => (p.2 - dbar) ^ 2)).sum
  (tvalInterceptQ r).map (fun t =>
    2 * tsf |t| ((r.length : ℝ) - (if sdd = 0 then 1 else 2)))

/-- The t-value of the single coefficient of the intercept-free fit
`y ~ [d]` taken when `add_constant` skips (a nonzero constant `d`):
`b = Σdy/Σd²`, `df_resid = n - 1`. -/
noncomputable def tvalSingleQ (r : List (ℚ × ℚ)) : Option ℝ :=
  let n : ℚ := r.length
  let sdd2 := (r.map (fun p => p.2 ^ 2)).sum
  if sdd2 = 0 then none
  else
    let b := (r.map (fun p => p.2 * p.1)).sum / sdd2
    let ssr := (r.map (fun p => (p.1 - b * p.2) ^ 2)).sum
    if n - 1 = 0 then none
    else
      let v : ℚ := ssr / (n - 1) / sdd2
      if v = 0 then none else some ((b : ℝ) / Real.sqrt (v : ℝ))

/-- Two-sided p-value of the single coefficient of the intercept-free
fit, `df_resid = n - 1`. -/
noncomputable def pvalSingleQ (tsf : ℝ → ℝ → ℝ) (r : List (ℚ × ℚ)) : Option ℝ :=
  (tvalSingleQ r).map (fun t => 2 * tsf |t| ((r.length : ℝ) - 1))

/-- Vector `model.tvalues` of `sm.OLS(group[metric],
sm.add_constant(group["pre_post_2016"])).fit()`: one entry per design
column — only the indicator column when `add_constant` skips the
intercept (nonzero constant indicator), `[intercept, indicator]`
otherwise.  Missing metric values are fed to the fit (missing='none')
and turn every t-value into `NaN`. -/
noncomputable def olsTvalues (rows : RegRows) : List (Option ℝ) :=
  if isNonzeroConst (rows.map (·.2)) then
    [match seqRows rows with | none => none | some r => tvalSingleQ r]
  else
    [match seqRows rows with | none => none | some r => tvalInterceptQ r,
     match seqRows rows with | none => none | some r => tvalSlopeQ r]

/-- Vector `model.pvalues` of the same fit, with the same shape. -/
noncomputable def olsPvalues (tsf : ℝ → ℝ → ℝ) (rows : RegRows) : List (Option ℝ) :=
  if isNonzeroConst (rows.map (·.2)) then
    [match seqRows rows with | none => none | some r => pvalSingleQ tsf r]
  else
    [match seqRows rows with | none => none | some r => pvalInterceptQ tsf r,
     match seqRows rows with | none => none | some r => pvalSlopeQ tsf r]

/-- The slope (break-indicator coefficient) t-value of the regression on
one group's rows, missing values propagating as `NaN`. -/
noncomputable def olsSlopeT (rows : RegRows) : Option ℝ :=
  match seqRows rows with | none => none | some r => tvalSlopeQ r

/-- The slope (break-indicator coefficient) p-value of the regression on
one group's rows, missing values propagating as `NaN`. -/
noncomputable def olsSlopeP (tsf : ℝ → ℝ → ℝ) (rows : RegRows) : Option ℝ :=
  match seqRows rows with | none => none | some r => pvalSlopeQ tsf r

/-- Body of the `perform_t_tests_sm` loop for one ticker and metric
(src/t_tests.py lines 83-97): under the guard
`group[metric].notnull().sum() > 1`, fit the OLS model and read
`model.tvalues[1]` and `model.pvalues[1]` — positional access past the
end of a single-coefficient fit raises `IndexError`; without the guard,
store the sentinel. -/
noncomputable def smEntry (tsf : ℝ → ℝ → ℝ) (rows : RegRows) : Except String TRes :=
  if 1 < notnullCount rows then
    match (olsTvalues rows).get? 1, (olsPvalues tsf rows).get? 1 with
    | some t, some p => .ok ⟨.num t, .num p⟩
    | _, _ => .error "IndexError: index 1 is out of bounds"
  else .ok insuffTRes

/-- Value of an indicator cell as a number; the `pre_post_2016` column
holds the integers `0`/`1` by construction. -/
def cellToQ : Cell → ℚ
  | .int n => (n : ℚ)
  | .num q => q
  | _ => 0

/-- Grouping `data_filtered.groupby("ticker")` (src/t_tests.py line 199): one
sub-frame per distinct ticker value, keys in sorted order (pandas sorts
group keys; missing keys are dropped). -/
def groupby (df : DF) (c : String) : Except String (List (String × DF)) := do
  let col ← getCol df c
  let keys := ((col.filterMap (fun x => match x with | .str s => some s | _ => none)).dedup).mergeSort (· ≤ ·)
  .ok (keys.map (fun k =>
    (k, ⟨df.header, df.rows.filter (fun r => cellAt df r c == .str k)⟩)))

/-- Function `perform_t_tests_sm(grouped_data, metrics)` (src/t_tests.py lines
68-98): for each ticker group and metric, run the per-metric regression
step on the metric column paired with the `pre_post_2016` column. -/
noncomputable def perform_t_tests_sm (tsf : ℝ → ℝ → ℝ)
    (grouped : List (String × DF)) (metrics : List String) :
    Except String (List (String × List (String × TRes))) :=
  grouped.mapM (fun g => do
    let rs ← metrics.mapM (fun m => do
      let yc ← getCol g.2 m
      let dc ← getCol g.2 "pre_post_2016"
      let v ← smEntry tsf ((yc.map cellToNum).zip (dc.map cellToQ))
      .ok (m, v))
    .ok (g.1, rs))

/-- One row of the results table `{Ticker, Metric, T-Statistic,
P-Value}`. -/
structure ResRow where
  ticker : String
  metric : String
  t_stat : SVal
  p_value : SVal

/-- Function `convert_results_to_dataframe(ttest_results_sm)` (src/t_tests.py
lines 101-125): one row appended per ticker (outer iteration) and metric
(inner iteration), in the dictionaries' insertion order. -/
def convert_results_to_dataframe (res : List (String × List (String × TRes))) :
    List ResRow :=
  res.flatMap (fun tm => tm.2.map (fun mv => ⟨tm.1, mv.1, mv.2.t_stat, mv.2.p_value⟩))

/-- The fixed metric list of the script (src/t_tests.py line 176). -/
def metricsList : List String := ["ROE (%)", "Net Profit Margin (%)", "Revenue Growth (%)"]

/-- Everything `main` computes before handing the frames to the
reporting collaborators (CSV writing and plotting). -/
structure PipeOut where
  alvVsOthers : List (String × TRes)
  tteVsOthers : List (String × TRes)
  df_results : List ResRow

/-- The statistical body of `main` (src/t_tests.py lines 164-207, the
part inside the `try`): filter, partition, run both testers, aggregate.
Any pandas/statsmodels exception propagates out of this body as an
`Except.error`. -/
noncomputable def runPipeline (tsf : ℝ → ℝ → ℝ) (df : DF) : Except String PipeOut := do
  let filtered ← filter_data df
  let r1 ← perform_ttests tsf (dataAlv filtered) (dataOthers filtered) metricsList
  let r2 ← perform_ttests tsf (dataTte filtered) (dataOthers filtered) metricsList
  let grouped ← groupby filtered "ticker"
  let rsm ← perform_t_tests_sm tsf grouped metricsList
  .ok ⟨r1, r2, convert_results_to_dataframe rsm⟩

/-- Observable result of one `main` run: a completed run, or a caught
exception reported as a printed terminal message.  The constructor
`raised` stands for an exception escaping `main` to its caller; the
`except` clauses of src/t_tests.py lines 209-214 catch every exception,
so `main` never produces it. -/
inductive MainOut where
  | completed (o : PipeOut)
  | printedError (e : String)
  | raised (e : String)

/-- Function `main()` (src/t_tests.py lines 154-214) on an already-loaded input
frame: the `try` body, with every raised exception caught and turned
into a printed message. -/
noncomputable def main (tsf : ℝ → ℝ → ℝ) (df : DF) : MainOut :=
  match runPipeline tsf df with
  | .ok o => .completed o
  | .error e => .printedError e

/-- Discriminator: did the run end in an exception escaping `main`? -/
def MainOut.isRaised : MainOut → Bool
  | .raised _ => true
  | _ => false

/-- A concrete stand-in for the Student-t survival function, used to
instantiate the `tsf` parameter in concrete evaluations; the theorems
about branch structure hold for every `tsf`. -/
def tsf0 : ℝ → ℝ → ℝ := fun _ _ => 0

/-- C1: for every pair of metric series, the per-metric `perform_ttests`
step returns a numeric `{t_stat, p_value}` outcome iff both series keep
strictly more than one non-missing value after `dropna`; whenever either
side keeps one or fewer, the result is exactly the `insufficient data`
sentinel pair, never a numeric one. -/
theorem c1_welch_numeric_iff_insufficient (tsf : ℝ → ℝ → ℝ) (c1 c2 : List Cell) :
    ((∃ t p, ttestEntry tsf c1 c2 = ⟨.num t, .num p⟩) ↔
      (1 < (dropna c1).length ∧ 1 < (dropna c2).length)) ∧
    ((dropna c1).length ≤ 1 ∨ (dropna c2).length ≤ 1 →
      ttestEntry tsf c1 c2 = insuffTRes) := by
  by_cases h : 1 < (dropna c1).length ∧ 1 < (dropna c2).length
  · refine ⟨⟨fun _ => h, fun _ => ?_⟩, fun hle => ?_⟩
    · exact ⟨_, _, by simp only [ttestEntry]; rw [if_pos h]⟩
    · exact absurd h (by omega)
  · refine ⟨⟨fun ⟨t, p, ht⟩ => ?_, fun hc => absurd hc h⟩, fun _ => ?_⟩
    · rw [show ttestEntry tsf c1 c2 = insuffTRes from by
        simp only [ttestEntry]; rw [if_neg h]] at ht
      exact SVal.noConfusion (congrArg TRes.t_stat ht)
    · simp only [ttestEntry]; rw [if_neg h]

/-- Witness for C1: a series keeping a single non-missing value forces
the sentinel outcome. -/
theorem c1_witness :
    ttestEntry tsf0 [Cell.num 5, Cell.na] [Cell.num 1, Cell.num 2] = insuffTRes :=
  (c1_welch_numeric_iff_insufficient tsf0 [Cell.num 5, Cell.na]
    [Cell.num 1, Cell.num 2]).2 (by decide)

/-- Swapping the two samples negates the Welch statistic: the squared
standard error is symmetric and the numerator changes sign. -/
theorem welchT_swap (a b : List ℚ) :
    welchT b a = (welchT a b).map (fun x => -x) := by
  simp only [welchT]
  rw [show qvar b / (b.length : ℚ) + qvar a / (a.length : ℚ)
      = qvar a / (a.length : ℚ) + qvar b / (b.length : ℚ) from add_comm _ _]
  by_cases h : qvar a / (a.length : ℚ) + qvar b / (b.length : ℚ) = 0
  · rw [if_pos h, if_pos h]
    rfl
  · rw [if_neg h, if_neg h]
    simp only [Option.map_some']
    congr 1
    rw [← neg_div]
    congr 1
    push_cast
    ring

/-- The Welch–Satterthwaite degrees of freedom are symmetric in the two
samples. -/
theorem welchDF_swap (a b : List ℚ) : welchDF b a = welchDF a b := by
  simp only [welchDF]
  ring

/-- Swapping the two samples keeps the two-sided Welch p-value. -/
theorem welchP_swap (tsf : ℝ → ℝ → ℝ) (a b : List ℚ) :
    welchP tsf b a = welchP tsf a b := by
  simp only [welchP, welchT_swap a b, welchDF_swap a b]
  cases welchT a b with
  | none => rfl
  | some t => simp [abs_neg]

/-- C9: on series both keeping more than one non-missing value, swapping
the arguments of the Welch step negates the returned statistic and keeps
the returned p-value. -/
theorem c9_welch_antisymmetry (tsf : ℝ → ℝ → ℝ) (c1 c2 : List Cell)
    (h1 : 1 < (dropna c1).length) (h2 : 1 < (dropna c2).length) :
    (ttestEntry tsf c1 c2).t_stat = .num (welchT (dropna c1) (dropna c2)) ∧
    (ttestEntry tsf c2 c1).t_stat =
      .num ((welchT (dropna c1) (dropna c2)).map (fun x => -x)) ∧
    (ttestEntry tsf c2 c1).p_value = (ttestEntry tsf c1 c2).p_value := by
  simp only [ttestEntry]
  rw [if_pos ⟨h1, h2⟩, if_pos ⟨h2, h1⟩]
  exact ⟨rfl, by rw [welchT_swap], by rw [welchP_swap]⟩

/-- Witness for C9 at two concrete two-element series. -/
theorem c9_witness :
    (ttestEntry tsf0 [Cell.num 0, Cell.num 1] [Cell.num 2, Cell.num 5]).t_stat =
      .num (welchT (dropna [Cell.num 0, Cell.num 1]) (dropna [Cell.num 2, Cell.num 5])) ∧
    (ttestEntry tsf0 [Cell.num 2, Cell.num 5] [Cell.num 0, Cell.num 1]).t_stat =
      .num ((welchT (dropna [Cell.num 0, Cell.num 1])
        (dropna [Cell.num 2, Cell.num 5])).map (fun x => -x)) ∧
    (ttestEntry tsf0 [Cell.num 2, Cell.num 5] [Cell.num 0, Cell.num 1]).p_value =
      (ttestEntry tsf0 [Cell.num 0, Cell.num 1] [Cell.num 2, Cell.num 5]).p_value :=
  c9_welch_antisymmetry tsf0 [Cell.num 0, Cell.num 1] [Cell.num 2, Cell.num 5]
    (by decide) (by decide)

/-- A name absent from the header has no column position. -/
theorem colIdx?_eq_none {h : List String} {c : String} (hc : c ∉ h) :
    colIdx? h c = none := by
  induction h with
  | nil => rfl
  | cons x t ih =>
    have hx : ¬(x = c) := by
      rintro rfl
      exact hc (List.mem_cons_self x t)
    rw [colIdx?, if_neg hx, ih (fun m => hc (List.mem_cons_of_mem _ m))]
    rfl

/-- Dropping an absent column is a pandas `KeyError`. -/
theorem dropCol_error {df : DF} {c : String} (hc : c ∉ df.header) :
    dropCol df c = .error ("KeyError: " ++ c) := by
  rw [dropCol, colIdx?_eq_none hc]

/-- Function `filter_data` raises `KeyError` on a frame without `in_index6`. -/
theorem filter_data_missing_col {df : DF} (h : "in_index6" ∉ df.header) :
    filter_data df = .error "KeyError: in_index6" := by
  unfold filter_data
  rw [dropCol_error h]
  rfl

/-- C10: `filter_data` requires the membership column `in_index6`: on
any frame lacking it, the drop raises `KeyError` and no filtered panel
is returned. -/
theorem c10_filter_data_requires_in_index6 (df : DF)
    (h : "in_index6" ∉ df.header) :
    filter_data df = .error "KeyError: in_index6" :=
  filter_data_missing_col h

/-- Witness for C10: a frame with only ticker and year columns. -/
theorem c10_witness :
    filter_data ⟨["ticker", "year"], []⟩ = .error "KeyError: in_index6" :=
  c10_filter_data_requires_in_index6 ⟨["ticker", "year"], []⟩ (by decide)

/-- C6: for every panel and row, the subject groups and the others group
are disjoint, and for either subject the union of its group with the
others group covers exactly the panel rows whose ticker differs from the
other reserved subject — the others group excludes both reserved
tickers, not only the current subject's. -/
theorem c6_partition_disjoint_cover (df : DF) (r : List Cell) :
    (¬(r ∈ (dataAlv df).rows ∧ r ∈ (dataOthers df).rows)) ∧
    (¬(r ∈ (dataTte df).rows ∧ r ∈ (dataOthers df).rows)) ∧
    ((r ∈ (dataAlv df).rows ∨ r ∈ (dataOthers df).rows) ↔
      r ∈ df.rows ∧ cellAt df r "ticker" ≠ .str "TTE.PA") ∧
    ((r ∈ (dataTte df).rows ∨ r ∈ (dataOthers df).rows) ↔
      r ∈ df.rows ∧ cellAt df r "ticker" ≠ .str "ALV.DE") := by
  simp only [dataAlv, dataTte, dataOthers, List.mem_filter, beq_iff_eq,
    Bool.not_eq_true', Bool.or_eq_false_iff, beq_eq_false_iff_ne, ne_eq]
  constructor
  · rintro ⟨⟨-, h1⟩, -, h2, -⟩
    exact h2 h1
  constructor
  · rintro ⟨⟨-, h1⟩, -, -, h2⟩
    exact h2 h1
  constructor
  · constructor
    · rintro (⟨hm, he⟩ | ⟨hm, -, hne⟩)
      · exact ⟨hm, by rw [he]; decide⟩
      · exact ⟨hm, hne⟩
    · rintro ⟨hm, hne⟩
      by_cases ha : cellAt df r "ticker" = .str "ALV.DE"
      · exact Or.inl ⟨hm, ha⟩
      · exact Or.inr ⟨hm, ha, hne⟩
  · constructor
    · rintro (⟨hm, he⟩ | ⟨hm, hne, -⟩)
      · exact ⟨hm, by rw [he]; decide⟩
      · exact ⟨hm, hne⟩
    · rintro ⟨hm, hne⟩
      by_cases ha : cellAt df r "ticker" = .str "TTE.PA"
      · exact Or.inl ⟨hm, ha⟩
      · exact Or.inr ⟨hm, hne, ha⟩

/-- Witness for C6: the cover equivalence at a one-row frame. -/
theorem c6_witness :
    (([Cell.str "ALV.DE"] ∈ (dataAlv ⟨["ticker"], [[Cell.str "ALV.DE"]]⟩).rows ∨
      [Cell.str "ALV.DE"] ∈ (dataOthers ⟨["ticker"], [[Cell.str "ALV.DE"]]⟩).rows) ↔
     ([Cell.str "ALV.DE"] ∈ (DF.mk ["ticker"] [[Cell.str "ALV.DE"]]).rows ∧
      cellAt ⟨["ticker"], [[Cell.str "ALV.DE"]]⟩ [Cell.str "ALV.DE"] "ticker" ≠
        .str "TTE.PA")) :=
  (c6_partition_disjoint_cover ⟨["ticker"], [[Cell.str "ALV.DE"]]⟩
    [Cell.str "ALV.DE"]).2.2.1

/-- The occurrences of every key are contiguous: between two equal keys
no different key appears. -/
def GroupedKeys (l : List String) : Prop :=
  ∀ i j k : Fin l.length, i < j → j < k → l.get i = l.get k → l.get j = l.get i

/-- A concrete statsmodels result dictionary: two tickers, two metrics
each (the sentinel payloads are irrelevant to row order). -/
def res0 : List (String × List (String × TRes)) :=
  [("ALV.DE", [("ROE (%)", insuffTRes), ("Net Profit Margin (%)", insuffTRes)]),
   ("TTE.PA", [("ROE (%)", insuffTRes), ("Net Profit Margin (%)", insuffTRes)])]

/-- Counterexample to C5 as stated: on two tickers with two metrics each,
the rows of `convert_results_to_dataframe` are not grouped first by
metric — the two `ROE (%)` rows are separated by a
`Net Profit Margin (%)` row (the iteration is ticker-major). -/
theorem c5_counterexample :
    ¬ GroupedKeys ((convert_results_to_dataframe res0).map (fun r => r.metric)) := by
  intro h
  have := h ⟨0, by decide⟩ ⟨1, by decide⟩ ⟨2, by decide⟩ (by decide) (by decide)
  simp only [convert_results_to_dataframe, res0] at this
  exact absurd (this rfl) (by decide)

/-- C5 amended: `convert_results_to_dataframe` produces exactly one row
per submitted (ticker, metric) pair — none dropped or duplicated, in the
input's iteration order, which is ticker-major (grouped first by ticker,
then by metric within a ticker); the per-metric regrouping happens only
downstream at plotting. -/
theorem c5_convert_rows_exact (res : List (String × List (String × TRes))) :
    (convert_results_to_dataframe res).map (fun r => (r.ticker, r.metric)) =
      res.flatMap (fun tm => tm.2.map (fun mv => (tm.1, mv.1))) ∧
    (convert_results_to_dataframe res).length =
      (res.map (fun tm => tm.2.length)).sum := by
  constructor
  · induction res with
    | nil => rfl
    | cons hd tl ih =>
      simp only [convert_results_to_dataframe, List.flatMap_cons, List.map_append,
        List.map_map] at ih ⊢
      rw [ih]
      simp [Function.comp]
  · induction res with
    | nil => rfl
    | cons hd tl ih =>
      simp only [convert_results_to_dataframe, List.flatMap_cons, List.length_append,
        List.length_map, List.map_cons, List.sum_cons] at ih ⊢
      rw [ih]

/-- Setting position `i` then reading it back gives the written cell. -/
theorem getD_set_self (l : List Cell) (i : ℕ) (v d : Cell) (h : i < l.length) :
    (l.set i v).getD i d = v := by
  induction l generalizing i with
  | nil => simp at h
  | cons x t ih =>
    cases i with
    | zero => rfl
    | succ m => simpa using ih m (by simpa using h)

/-- Setting position `i` leaves any other position unchanged. -/
theorem getD_set_ne (l : List Cell) {i j : ℕ} (v d : Cell) (h : i ≠ j) :
    (l.set i v).getD j d = l.getD j d := by
  induction l generalizing i j with
  | nil => rfl
  | cons x t ih =>
    cases i with
    | zero =>
      cases j with
      | zero => exact absurd rfl h
      | succ m => rfl
    | succ m =>
      cases j with
      | zero => rfl
      | succ k => simpa using ih (fun e => h (by rw [e]))

/-- Reading before the appended tail sees the original list. -/
theorem getD_append_lt (l s : List Cell) (j : ℕ) (d : Cell) (h : j < l.length) :
    (l ++ s).getD j d = l.getD j d := by
  induction l generalizing j with
  | nil => simp at h
  | cons x t ih =>
    cases j with
    | zero => rfl
    | succ m => exact ih m (by simpa using h)

/-- Reading directly past a list sees the first appended cell. -/
theorem getD_append_len (l : List Cell) (v d : Cell) :
    (l ++ [v]).getD l.length d = v := by
  induction l with
  | nil => rfl
  | cons x t ih => simp [ih]

/-- A found column position is within the header. -/
theorem colIdx?_lt {h : List String} {c : String} {i : ℕ}
    (e : colIdx? h c = some i) : i < h.length := by
  induction h generalizing i with
  | nil => cases e
  | cons x t ih =>
    rw [colIdx?] at e
    by_cases hx : x = c
    · rw [if_pos hx] at e
      cases e
      simp
    · rw [if_neg hx] at e
      cases hm : colIdx? t c with
      | none => rw [hm] at e; cases e
      | some m =>
        rw [hm] at e
        cases e
        have := ih hm
        simp only [List.length_cons]
        omega

/-- The header name at a found column position is the looked-up name. -/
theorem colIdx?_getD {h : List String} {c : String} {i : ℕ}
    (e : colIdx? h c = some i) : h.getD i "" = c := by
  induction h generalizing i with
  | nil => cases e
  | cons x t ih =>
    rw [colIdx?] at e
    by_cases hx : x = c
    · rw [if_pos hx] at e
      cases e
      exact hx
    · rw [if_neg hx] at e
      cases hm : colIdx? t c with
      | none => rw [hm] at e; cases e
      | some m =>
        rw [hm] at e
        cases e
        simpa using ih hm

/-- Distinct names found in a header sit at distinct positions. -/
theorem colIdx?_ne {h : List String} {c c' : String} {i j : ℕ}
    (hcc : c ≠ c') (e : colIdx? h c = some i) (e' : colIdx? h c' = some j) :
    i ≠ j := by
  intro hij
  apply hcc
  rw [← colIdx?_getD e, ← colIdx?_getD e', hij]

/-- A position found in a header survives appending columns. -/
theorem colIdx?_append_left {h : List String} {c : String} {i : ℕ}
    (t : List String) (e : colIdx? h c = some i) :
    colIdx? (h ++ t) c = some i := by
  induction h generalizing i with
  | nil => cases e
  | cons x hs ih =>
    rw [colIdx?] at e
    rw [List.cons_append, colIdx?]
    by_cases hx : x = c
    · rw [if_pos hx] at e ⊢
      exact e
    · rw [if_neg hx] at e ⊢
      cases hm : colIdx? hs c with
      | none => rw [hm] at e; cases e
      | some m => rw [hm] at e; rw [ih hm]; exact e

/-- A name absent from a header is found exactly at the end after being
appended. -/
theorem colIdx?_append_self {h : List String} {c : String}
    (hn : colIdx? h c = none) : colIdx? (h ++ [c]) c = some h.length := by
  induction h with
  | nil => simp [colIdx?]
  | cons x t ih =>
    rw [colIdx?] at hn
    rw [List.cons_append, colIdx?]
    by_cases hx : x = c
    · rw [if_pos hx] at hn; cases hn
    · rw [if_neg hx] at hn ⊢
      cases hm : colIdx? t c with
      | some m => rw [hm] at hn; cases hn
      | none => rw [ih hm]; simp

/-- A different name stays absent after appending a column. -/
theorem colIdx?_append_ne {h : List String} {c c' : String} (hcc : c' ≠ c)
    (hn : colIdx? h c' = none) : colIdx? (h ++ [c]) c' = none := by
  induction h with
  | nil => simp [colIdx?, (Ne.symm hcc : c ≠ c')]
  | cons x t ih =>
    rw [colIdx?] at hn
    rw [List.cons_append, colIdx?]
    by_cases hx : x = c'
    · rw [if_pos hx] at hn; cases hn
    · rw [if_neg hx] at hn ⊢
      cases hm : colIdx? t c' with
      | some m => rw [hm] at hn; cases hn
      | none => rw [ih hm]; rfl

/-- Reading back the column that was just overwritten row by row. -/
theorem map_getD_zip_set (rows : List (List Cell)) (vals : List Cell) (i : ℕ)
    (hlen : vals.length = rows.length) (hr : ∀ r ∈ rows, i < r.length) :
    ((rows.zip vals).map (fun p => p.1.set i p.2)).map (fun r => r.getD i Cell.na)
      = vals := by
  induction rows generalizing vals with
  | nil =>
    cases vals with
    | nil => rfl
    | cons v vs => simp at hlen
  | cons r rs ih =>
    cases vals with
    | nil => simp at hlen
    | cons v vs =>
      simp only [List.zip_cons_cons, List.map_cons]
      rw [getD_set_self r i v Cell.na (hr r (List.mem_cons_self r rs)),
        ih vs (by simpa using hlen) (fun r' m => hr r' (List.mem_cons_of_mem _ m))]

/-- Reading back the column that was just appended row by row. -/
theorem map_getD_zip_append (rows : List (List Cell)) (vals : List Cell) (n : ℕ)
    (hlen : vals.length = rows.length) (hr : ∀ r ∈ rows, r.length = n) :
    ((rows.zip vals).map (fun p => p.1 ++ [p.2])).map (fun r => r.getD n Cell.na)
      = vals := by
  induction rows generalizing vals with
  | nil =>
    cases vals with
    | nil => rfl
    | cons v vs => simp at hlen
  | cons r rs ih =>
    cases vals with
    | nil => simp at hlen
    | cons v vs =>
      simp only [List.zip_cons_cons, List.map_cons]
      have hrn : r.length = n := hr r (List.mem_cons_self r rs)
      rw [ih vs (by simpa using hlen) (fun r' m => hr r' (List.mem_cons_of_mem _ m)),
        ← hrn, getD_append_len]

/-- Overwriting one column leaves the cells of any other position
unchanged, row by row. -/
theorem map_getD_zip_set_ne (rows : List (List Cell)) (vals : List Cell)
    {i j : ℕ} (hij : i ≠ j) (hlen : vals.length = rows.length) :
    ((rows.zip vals).map (fun p => p.1.set i p.2)).map (fun r => r.getD j Cell.na)
      = rows.map (fun r => r.getD j Cell.na) := by
  induction rows generalizing vals with
  | nil => rfl
  | cons r rs ih =>
    cases vals with
    | nil => simp at hlen
    | cons v vs =>
      simp only [List.zip_cons_cons, List.map_cons]
      rw [getD_set_ne r v Cell.na hij, ih vs (by simpa using hlen)]

/-- Appending a cell to each row leaves the cells at in-range positions
unchanged, row by row. -/
theorem map_getD_zip_append_lt (rows : List (List Cell)) (vals : List Cell)
    {j n : ℕ} (hj : j < n) (hlen : vals.length = rows.length)
    (hr : ∀ r ∈ rows, r.length = n) :
    ((rows.zip vals).map (fun p => p.1 ++ [p.2])).map (fun r => r.getD j Cell.na)
      = rows.map (fun r => r.getD j Cell.na) := by
  induction rows generalizing vals with
  | nil => rfl
  | cons r rs ih =>
    cases vals with
    | nil => simp at hlen
    | cons v vs =>
      simp only [List.zip_cons_cons, List.map_cons]
      rw [getD_append_lt r [v] j Cell.na
          (by rw [hr r (List.mem_cons_self r rs)]; exact hj),
        ih vs (by simpa using hlen) (fun r' m => hr r' (List.mem_cons_of_mem _ m))]

/-- Reading back a freshly assigned column returns the assigned cells
(pandas `data[c] = vals; data[c]`). -/
theorem getCol_setCol_self (df : DF) (c : String) (vals : List Cell)
    (hrect : df.Rect) (hlen : vals.length = df.rows.length) :
    getCol (setCol df c vals) c = .ok vals := by
  unfold getCol setCol
  cases e : colIdx? df.header c with
  | some i =>
    simp only [e]
    rw [map_getD_zip_set df.rows vals i hlen
      (fun r m => by rw [hrect r m]; exact colIdx?_lt e)]
  | none =>
    simp only [colIdx?_append_self e]
    rw [map_getD_zip_append df.rows vals df.header.length hlen hrect]

/-- Assigning one column does not change the reading of any other
column. -/
theorem getCol_setCol_other (df : DF) (c c' : String) (vals : List Cell)
    (hcc : c' ≠ c) (hrect : df.Rect) (hlen : vals.length = df.rows.length) :
    getCol (setCol df c vals) c' = getCol df c' := by
  unfold getCol setCol
  cases e : colIdx? df.header c with
  | some i =>
    cases e' : colIdx? df.header c' with
    | none => simp only [e']
    | some j =>
      simp only [e']
      rw [map_getD_zip_set_ne df.rows vals (colIdx?_ne (Ne.symm hcc) e e') hlen]
  | none =>
    cases e' : colIdx? df.header c' with
    | none => simp only [colIdx?_append_ne hcc e', e']
    | some j =>
      simp only [colIdx?_append_left [c] e', e']
      rw [map_getD_zip_append_lt df.rows vals (colIdx?_lt e') hlen hrect]

/-- A successfully read column has one cell per row. -/
theorem getCol_length {df : DF} {c : String} {col : List Cell}
    (h : getCol df c = .ok col) : col.length = df.rows.length := by
  unfold getCol at h
  cases e : colIdx? df.header c with
  | none => rw [e] at h; cases h
  | some i =>
    rw [e] at h
    cases h
    simp

/-- Dropping a column keeps the frame rectangular. -/
theorem dropCol_rect {df d1 : DF} {c : String}
    (h : dropCol df c = .ok d1) (hrect : df.Rect) : d1.Rect := by
  unfold dropCol at h
  cases e : colIdx? df.header c with
  | none => rw [e] at h; cases h
  | some i =>
    rw [e] at h
    cases h
    intro r hr
    simp only [List.mem_map] at hr
    obtain ⟨r0, hr0, rfl⟩ := hr
    have hi : i < df.header.length := colIdx?_lt e
    rw [List.length_eraseIdx, List.length_eraseIdx, if_pos hi,
      if_pos (by rw [hrect r0 hr0]; exact hi), hrect r0 hr0]

/-- C7: on a rectangular frame accepted by `filter_data`, the derived
`pre_post_2016` cell of every row whose year is the integer `n` is `0`
when `n < 2016` and `1` when `2016 ≤ n`. -/
theorem c7_break_indicator (df df' : DF) (yc pc : List Cell) (i : ℕ) (n : ℤ)
    (hrect : df.Rect)
    (hf : filter_data df = .ok df')
    (hy : getCol df' "year" = .ok yc)
    (hyi : yc[i]? = some (.int n))
    (hp : getCol df' "pre_post_2016" = .ok pc) :
    pc[i]? = some (.int (if n < 2016 then 0 else 1)) := by
  unfold filter_data at hf
  cases e1 : dropCol df "in_index6" with
  | error msg => rw [e1] at hf; cases hf
  | ok d1 =>
    rw [e1] at hf
    replace hf : (getCol d1 "year" >>= fun yc => Except.ok (setCol d1 "pre_post_2016"
        (yc.map (fun c => Cell.int (if cellGe2016 c then 1 else 0))))) = .ok df' := hf
    cases e2 : getCol d1 "year" with
    | error msg => rw [e2] at hf; cases hf
    | ok yc0 =>
      rw [e2] at hf
      replace hf : Except.ok (setCol d1 "pre_post_2016"
          (yc0.map (fun c => Cell.int (if cellGe2016 c then 1 else 0)))) = .ok df' := hf
      have hf' : setCol d1 "pre_post_2016"
          (yc0.map (fun c => Cell.int (if cellGe2016 c then 1 else 0))) = df' := by
        cases hf
        rfl
      have hrect1 : d1.Rect := dropCol_rect e1 hrect
      have hlv : (yc0.map (fun c => Cell.int (if cellGe2016 c then 1 else 0))).length
          = d1.rows.length := by
        rw [List.length_map]
        exact getCol_length e2
      have hself := getCol_setCol_self d1 "pre_post_2016"
        (yc0.map (fun c => Cell.int (if cellGe2016 c then 1 else 0))) hrect1 hlv
      have hother := getCol_setCol_other d1 "pre_post_2016" "year"
        (yc0.map (fun c => Cell.int (if cellGe2016 c then 1 else 0)))
        (by decide) hrect1 hlv
      rw [hf'] at hself hother
      rw [hy] at hother
      rw [hp] at hself
      cases hself
      rw [e2] at hother
      cases hother
      rw [List.getElem?_map, hyi]
      simp only [Option.map_some', cellGe2016]
      by_cases h2016 : (2016 : ℤ) ≤ n
      · rw [if_pos (by simpa using h2016), if_neg (by omega)]
      · rw [if_neg (by simpa using h2016), if_pos (by omega)]

/-- Witness for C7 at a two-row frame with years 2015 and 2017: the
first derived indicator cell is `0`. -/
theorem c7_witness :
    ([Cell.int 0, Cell.int 1] : List Cell)[0]? =
      some (Cell.int (if (2015 : ℤ) < 2016 then 0 else 1)) :=
  c7_break_indicator
    ⟨["ticker", "year", "in_index6"],
      [[Cell.str "A", Cell.int 2015, Cell.int 1],
       [Cell.str "A", Cell.int 2017, Cell.int 1]]⟩
    ⟨["ticker", "year", "pre_post_2016"],
      [[Cell.str "A", Cell.int 2015, Cell.int 0],
       [Cell.str "A", Cell.int 2017, Cell.int 1]]⟩
    [Cell.int 2015, Cell.int 2017] [Cell.int 0, Cell.int 1] 0 2015
    (by decide) (by rfl) (by rfl) (by rfl) (by rfl)

/-- Under the sample-size guard, with a design keeping the prepended
intercept (the indicator not a nonzero constant), the per-metric
regression step returns exactly the slope (break-indicator) t-value and
p-value — positions `[1]` of `tvalues`/`pvalues`. -/
theorem smEntry_slope (tsf : ℝ → ℝ → ℝ) (rows : RegRows)
    (h1 : 1 < notnullCount rows)
    (h2 : isNonzeroConst (rows.map (·.2)) = false) :
    smEntry tsf rows = .ok ⟨.num (olsSlopeT rows), .num (olsSlopeP tsf rows)⟩ := by
  unfold smEntry
  rw [if_pos h1]
  unfold olsTvalues olsPvalues
  simp only [h2, Bool.false_eq_true, if_false]
  unfold olsSlopeT olsSlopeP
  rfl

/-- C2 (evaluation): on a group with two non-missing observations whose
break indicator is constant, the regression step never yields the
`insufficient data` sentinel.  All post-break (indicator constantly 1):
`add_constant` skips the intercept, the fit has a single coefficient and
`model.tvalues[1]` raises `IndexError`.  All pre-break (indicator
constantly 0): the intercept is prepended to a zero column, the fit is
rank deficient and the returned statistic and p-value are `NaN`. -/
theorem c2_degenerate_design_eval :
    smEntry tsf0 [(some 1, 1), (some 2, 1)] =
      .error "IndexError: index 1 is out of bounds" ∧
    smEntry tsf0 [(some 1, 0), (some 2, 0)] = .ok ⟨.num none, .num none⟩ :=
  ⟨rfl, by with_unfolding_all rfl⟩

/-- C3 (evaluation): rows with a missing metric value are not excluded
from the regression.  On three non-missing values plus one missing one
the guard passes but the fit (statsmodels `missing='none'`) ingests the
`NaN` row and returns `NaN` statistic and p-value, while the same group
without the missing row has a finite slope t-value — so the missing row
changes the outcome. -/
theorem c3_missing_not_excluded_eval :
    smEntry tsf0 [(some 1, 0), (some 2, 0), (some 4, 1), (none, 1)] =
      .ok ⟨.num none, .num none⟩ ∧
    (olsSlopeT [(some 1, 0), (some 2, 0), (some 4, 1)]).isSome = true ∧
    smEntry tsf0 [(some 1, 0), (some 2, 0), (some 4, 1), (none, 1)] ≠
      smEntry tsf0 [(some 1, 0), (some 2, 0), (some 4, 1)] := by
  refine ⟨rfl, ?_, ?_⟩
  · with_unfolding_all rfl
  · intro h
    rw [smEntry_slope tsf0 [(some 1, 0), (some 2, 0), (some 4, 1)]
      (by decide) (by decide)] at h
    replace h : (Except.ok (⟨.num none, .num none⟩ : TRes) :
        Except String TRes) = .ok ⟨.num (olsSlopeT [(some 1, 0), (some 2, 0), (some 4, 1)]),
          .num (olsSlopeP tsf0 [(some 1, 0), (some 2, 0), (some 4, 1)])⟩ := h
    simp only [Except.ok.injEq, TRes.mk.injEq, SVal.num.injEq] at h
    have hs : (olsSlopeT [(some 1, 0), (some 2, 0), (some 4, 1)]).isSome = true := by
      with_unfolding_all rfl
    rw [← h.1] at hs
    cases hs

/-- Counterexample to C4 as stated: a group of three non-missing
observations all post-break satisfies the stated precondition (more than
one non-missing value), yet the step returns no outcome at all — the
intercept is skipped for the constant nonzero indicator and the
positional read `tvalues[1]` raises `IndexError`. -/
theorem c4_counterexample :
    smEntry tsf0 [(some 3, 1), (some 7, 1), (some 5, 1)] =
      .error "IndexError: index 1 is out of bounds" := rfl

/-- C4 amended: for every group and metric with more than one
non-missing observation whose break indicator is not a nonzero constant
(so the design matrix is intercept-prepended), the outcome is exactly
the t-value and two-sided p-value of the break-indicator (slope)
coefficient of the OLS fit — position `[1]`, not the intercept's
position `[0]`. -/
theorem c4_slope_extraction (tsf : ℝ → ℝ → ℝ) (rows : RegRows)
    (h1 : 1 < notnullCount rows)
    (h2 : isNonzeroConst (rows.map (·.2)) = false) :
    smEntry tsf rows = .ok ⟨.num (olsSlopeT rows), .num (olsSlopeP tsf rows)⟩ :=
  smEntry_slope tsf rows h1 h2

/-- Witness for the amended C4 at a concrete mixed pre/post group. -/
theorem c4_witness :
    smEntry tsf0 [(some 1, 0), (some 2, 1), (some 5, 1)] =
      .ok ⟨.num (olsSlopeT [(some 1, 0), (some 2, 1), (some 5, 1)]),
        .num (olsSlopeP tsf0 [(some 1, 0), (some 2, 1), (some 5, 1)])⟩ :=
  c4_slope_extraction tsf0 [(some 1, 0), (some 2, 1), (some 5, 1)]
    (by decide) (by decide)

/-- Counterexample to C8 as stated: on a frame missing the `in_index6`
column, the schema `KeyError` does not propagate to `main`'s caller —
the blanket `except` clauses catch it and `main` only prints a terminal
message. -/
theorem c8_counterexample :
    main tsf0 ⟨["ticker", "year"], [[Cell.str "A", Cell.int 2015]]⟩ =
      .printedError "KeyError: in_index6" ∧
    (main tsf0 ⟨["ticker", "year"], [[Cell.str "A", Cell.int 2015]]⟩).isRaised
      = false :=
  ⟨rfl, rfl⟩

/-- C8 amended: a schema validation failure aborts the run before any
test result is produced and is reported as a caught terminal message
(not propagated to the caller), while a per-metric insufficient-data
outcome is recorded as a normal result value and never raises. -/
theorem c8_schema_aborts_insufficiency_absorbed :
    (∀ (tsf : ℝ → ℝ → ℝ) (df : DF), "in_index6" ∉ df.header →
      main tsf df = .printedError "KeyError: in_index6") ∧
    (∀ (tsf : ℝ → ℝ → ℝ) (rows : RegRows), notnullCount rows ≤ 1 →
      smEntry tsf rows = .ok insuffTRes) := by
  constructor
  · intro tsf df h
    unfold main runPipeline
    rw [filter_data_missing_col h]
    rfl
  · intro tsf rows h
    unfold smEntry
    rw [if_neg (by omega)]

/-- Witness for the amended C8: a missing membership column prints the
schema error; a single-observation group stores the sentinel. -/
theorem c8_witness :
    main tsf0 ⟨["year"], []⟩ = .printedError "KeyError: in_index6" ∧
    smEntry tsf0 [(some 3, 0)] = .ok insuffTRes :=
  ⟨c8_schema_aborts_insufficiency_absorbed.1 tsf0 ⟨["year"], []⟩ (by decide),
   c8_schema_aborts_insufficiency_absorbed.2 tsf0 [(some 3, 0)] (by decide)⟩
